import Mathlib

/-!
# Verification of the `kconf` entry-store manager

A shallow embedding of `main.go` of the `kconf` repository: a CLI tool that
manages a directory of symlinks ("entries"), each named by an alias and
pointing at a kubeconfig file, and that resolves user selectors (1-based
index or literal alias) to entries.

Modelling conventions:
* Go strings are Lean `String`s (byte-wise lexicographic order on valid
  UTF-8 agrees with code-point order, so Go `<` on strings is Lean `<`).
* Go `int` is modelled by `Int` (64-bit overflow only matters inside
  `strconv.Atoi`, where it is modelled explicitly).
* The entry-store directory is a `Store`: a list of named children tagged
  as directory, regular file, or symlink, plus a `readable` flag modelling
  whether `ioutil.ReadDir` succeeds on it.
* The surrounding filesystem state is a `World`: the store, the set of
  existing external absolute file paths (for `os.Stat` on kubeconfig files
  and symlink targets), the working directory (for `filepath.Abs`) and the
  value of the `KUBECONFIG` environment variable.
* A handler's effect is a triple: the new `World`, the list of lines
  printed to stdout, and an `HRes` (normal `ok`/`err` return, or `crash`
  for a Go runtime panic such as an out-of-bounds slice access).
-/

namespace Kconf

/-- Argument vectors (`[]string`).  Named so that it stays visible inside
the `Config` namespace, where the field `Config.List` shadows `List`. -/
abbrev ArgList := List String

/-! ## Go standard-library string functions, translated from their
documented/implemented semantics -/

/-- Go `unicode.IsSpace`: the Unicode White_Space property, which is what
`strings.TrimSpace` trims. -/
def goIsSpace (c : Char) : Bool :=
  (9 ≤ c.toNat && c.toNat ≤ 13) || c.toNat = 32 || c.toNat = 0x85 ||
  c.toNat = 0xA0 || c.toNat = 0x1680 ||
  (0x2000 ≤ c.toNat && c.toNat ≤ 0x200A) ||
  c.toNat = 0x2028 || c.toNat = 0x2029 || c.toNat = 0x202F ||
  c.toNat = 0x205F || c.toNat = 0x3000

/-- Go `strings.TrimSpace`: drop leading and trailing white space. -/
def goTrimSpace (s : String) : String :=
  ⟨((s.data.dropWhile goIsSpace).reverse.dropWhile goIsSpace).reverse⟩

/-- Go `strconv.Atoi` (= `ParseInt(s, 10, 0)` with 64-bit `int`): returns the
parsed value and an error flag.  On a syntax error the returned value is 0;
on 64-bit overflow it is the clamped value `±(2^63 − 1 / 2^63)`, both with
the error flag set — exactly the pair Go's `Atoi` returns. -/
def goAtoi (s : String) : Int × Bool :=
  let (neg, digits) :=
    match s.data with
    | '-' :: rest => (true, rest)
    | '+' :: rest => (false, rest)
    | l => (false, l)
  if digits.isEmpty then (0, true)
  else if digits.all Char.isDigit then
    let n : Nat := digits.foldl (fun acc c => acc * 10 + (c.toNat - 48)) 0
    if neg then
      if n ≤ 2 ^ 63 then (-(n : Int), false) else (-(2 ^ 63 : Int), true)
    else
      if n < 2 ^ 63 then ((n : Int), false) else ((2 ^ 63 : Int) - 1, true)
  else (0, true)

/-- Split a character list around every occurrence of `sep`
(`strings.Split` with a one-character separator; also used for the `/`
splitting inside `path.Clean`).  Always returns at least one part. -/
def splitOnChar (sep : Char) : List Char → List (List Char)
  | [] => [[]]
  | c :: rest =>
    if c = sep then [] :: splitOnChar sep rest
    else
      match splitOnChar sep rest with
      | h :: t => (c :: h) :: t
      | [] => [[c]]

/-- Go `strings.Split(s, ".")` as a list of strings. -/
def goSplitDot (s : String) : List String :=
  (splitOnChar '.' s.data).map fun l => (⟨l⟩ : String)

/-- Go `strings.Split(s, ".")[0]`: the part of `s` before the first dot
(`Split` always returns a non-empty list, so the `[0]` access is safe). -/
def goSplitDotHead (s : String) : String :=
  (goSplitDot s).headD ""

/-- Go `path.Base`: the last element of the path after stripping trailing
slashes; `"."` for the empty path, `"/"` when the path is all slashes. -/
def goPathBase (s : String) : String :=
  if s = "" then "."
  else
    let stripped := s.data.reverse.dropWhile (fun c => c = '/')
    if stripped = [] then "/"
    else ⟨(stripped.takeWhile (fun c => ¬ c = '/')).reverse⟩

/-- The component-stack processing inside `path.Clean`: `""` and `"."`
components are dropped, `".."` pops the last kept component (and is itself
kept only when the path is not rooted and nothing is left to pop).  The
accumulator holds the kept components in reverse order. -/
def cleanStack (rooted : Bool) : List String → List String → List String
  | acc, [] => acc
  | acc, c :: rest =>
    if c = "" || c = "." then cleanStack rooted acc rest
    else if c = ".." then
      match acc with
      | [] => cleanStack rooted (if rooted then [] else [".."]) rest
      | h :: t =>
        if h = ".." then cleanStack rooted (c :: h :: t) rest
        else cleanStack rooted t rest
    else cleanStack rooted (c :: acc) rest

/-- Go `path.Clean`: lexical cleaning of a slash-separated path. -/
def goPathClean (s : String) : String :=
  if s = "" then "."
  else
    let rooted := s.data.head? = some '/'
    let comps := (splitOnChar '/' s.data).map fun l => (⟨l⟩ : String)
    let body := String.intercalate "/" (cleanStack rooted [] comps).reverse
    if rooted then (if body = "" then "/" else "/" ++ body)
    else (if body = "" then "." else body)

/-- Go `path.Join(a, b)`: concatenate the non-empty elements with `/` and
`Clean` the result; `""` when both are empty. -/
def goPathJoin (a b : String) : String :=
  if a = "" then (if b = "" then "" else goPathClean b)
  else goPathClean (a ++ "/" ++ b)

/-- Go `filepath.Abs` on Unix: `Clean(path)` when the path is rooted,
otherwise `Join(cwd, path)`. -/
def goAbs (cwd p : String) : String :=
  if p.data.head? = some '/' then goPathClean p else goPathJoin cwd p

/-! ## Filesystem model -/

/-- The kind of a directory child, as seen by `ioutil.ReadDir`
(which uses `Lstat`, so a symlink reports as a symlink, never as a
directory). -/
inductive FNode where
  | dir : FNode
  | file : FNode
  | symlink (target : String) : FNode
deriving DecidableEq, Repr

/-- One child of the store directory. -/
structure DirEntry where
  name : String
  node : FNode
deriving DecidableEq, Repr

/-- Whether the child is a symbolic link (the filter condition
`!file.IsDir() && file.Mode()&fs.ModeSymlink == fs.ModeSymlink`). -/
def FNode.isSym : FNode → Bool
  | .symlink _ => true
  | _ => false

/-- The store directory: its children and whether reading it succeeds. -/
structure Store where
  readable : Bool
  children : List DirEntry
deriving DecidableEq, Repr

/-- The filesystem/environment state a handler can observe or change. -/
structure World where
  store : Store
  extFiles : List String
  cwd : String
  kubeconfigEnv : String
deriving DecidableEq, Repr

/-- How a handler invocation ends: a normal `nil` return, a Go `error`
return, or a runtime panic (`crash`). -/
inductive HRes where
  | ok : HRes
  | err (msg : String) : HRes
  | crash : HRes
deriving DecidableEq, Repr

/-- Lexicographic comparison of character lists by code point, which on
valid UTF-8 agrees with Go's byte-wise string `<=`. -/
def charListLeb : List Char → List Char → Bool
  | [], _ => true
  | _ :: _, [] => false
  | a :: as, b :: bs =>
    if a.toNat < b.toNat then true
    else if a.toNat = b.toNat then charListLeb as bs
    else false

theorem charListLeb_total (a b : List Char) :
    charListLeb a b = true ∨ charListLeb b a = true := by
  induction a generalizing b with
  | nil => left; rfl
  | cons x xs ih =>
    cases b with
    | nil => right; rfl
    | cons y ys =>
      rcases Nat.lt_trichotomy x.toNat y.toNat with h | h | h
      · left; simp [charListLeb, h]
      · rcases ih ys with h' | h' <;>
          [left; right] <;> simp [charListLeb, h, h']
      · right; simp [charListLeb, h]

theorem charListLeb_trans (a b c : List Char)
    (hab : charListLeb a b = true) (hbc : charListLeb b c = true) :
    charListLeb a c = true := by
  induction a generalizing b c with
  | nil => rfl
  | cons x xs ih =>
    cases b with
    | nil => simp [charListLeb] at hab
    | cons y ys =>
      cases c with
      | nil => simp [charListLeb] at hbc
      | cons z zs =>
        simp only [charListLeb] at hab hbc ⊢
        split_ifs at hab hbc ⊢ with h1 h2 h3 h4 h5 h6 <;>
          first
            | rfl
            | omega
            | exact ih ys zs hab hbc

/-- The ordering `ioutil.ReadDir` sorts directory entries by:
`list[i].Name() < list[j].Name()` on Go strings (byte-wise, which equals
code-point order on valid UTF-8). -/
def nameLe (a b : DirEntry) : Prop := charListLeb a.name.data b.name.data = true

instance : DecidableRel nameLe := fun a b => by
  unfold nameLe; infer_instance

instance : IsTotal DirEntry nameLe :=
  ⟨fun a b => charListLeb_total a.name.data b.name.data⟩

instance : IsTrans DirEntry nameLe :=
  ⟨fun _ _ _ h h' => charListLeb_trans _ _ _ h h'⟩

/-! ## The operations of `main.go` -/

/-- Function `listSymDir(dir)`: `ioutil.ReadDir` (which sorts the children by name;
directory entry names are unique, so any correct by-name sort — here
insertion sort — yields the same list Go's produces) followed by the
filter keeping only symbolic links.  Fails when the directory cannot be
read. -/
def listSymDir (st : Store) : Except String (List DirEntry) :=
  if st.readable then
    .ok (((st.children.insertionSort nameLe).filter fun e => e.node.isSym))
  else .error "open dir: permission denied"

/-- How a call to `makeKubeconfig` resolves, with the `result` callback
abstracted: `callResult p` stands for `return result(p)`. -/
inductive MakeOutcome where
  /-- Case `len(args) == 0`: `return fmt.Errorf("not enough arguments")`. -/
  | errNotEnough : MakeOutcome
  /-- Case where `listSymDir` failed and the code does `return nil` — it reports
  success. -/
  | okNilOnListError : MakeOutcome
  /-- Case `return fmt.Errorf("index out of range")`. -/
  | errOutOfRange : MakeOutcome
  /-- the slice access `files[idx-1]` is out of bounds: a Go runtime
  panic, carrying the offending position `idx-1`. -/
  | oobAccess (pos : Int) : MakeOutcome
  /-- Case `return result(path.Join(configPath, files[...].Name()))` with the
  given argument. -/
  | callResult (linkPath : String) : MakeOutcome
deriving DecidableEq, Repr

/-- Function `makeKubeconfig(configPath, args, result)`, the selector resolver
shared by Set and Remove, with the `listSymDir(configPath)` call made
explicit as its result and the `result` callback abstracted into the
outcome.  Mirrors the source line by line: empty `args` errors; a
`listSymDir` error returns `nil`; when `strconv.Atoi(args[0])` fails the
entries are scanned for one whose name equals the whitespace-trimmed
selector; otherwise — and also when no alias matched — the bounds check
`idx < 0 || idx > len(files)` runs on the value Atoi returned, and then
`files[idx-1]` is accessed. -/
def makeKubeconfig (configPath : String) (listRes : Except String (List DirEntry))
    (args : List String) : MakeOutcome :=
  match args with
  | [] => .errNotEnough
  | arg0 :: _ =>
    match listRes with
    | .error _ => .okNilOnListError
    | .ok files =>
      let p := goAtoi arg0
      let idx : Int := p.1
      let aliasHit : Option DirEntry :=
        if p.2 then files.find? (fun f => f.name == goTrimSpace arg0) else none
      match aliasHit with
      | some f => .callResult (goPathJoin configPath f.name)
      | none =>
        if idx < 0 || idx > (files.length : Int) then .errOutOfRange
        else if idx - 1 < 0 then .oobAccess (idx - 1)
        else
          match files.get? (idx - 1).toNat with
          | some f => .callResult (goPathJoin configPath f.name)
          | none => .oobAccess (idx - 1)

/-- Function `output(linkPath)`: print the activation line and return `nil`.
Touches no filesystem state. -/
def output (w : World) (linkPath : String) : World × List String × HRes :=
  (w, ["export KUBECONFIG=" ++ linkPath], .ok)

/-- Go `os.Readlink` on a path `configPath/<name>` inside the store: the
target of the symlink named `goPathBase linkPath`, an error when that
child is missing or not a symlink. -/
def goReadlink (st : Store) (linkPath : String) : Except String String :=
  match st.children.find? (fun e => e.name == goPathBase linkPath) with
  | some e =>
    match e.node with
    | .symlink t => .ok t
    | _ => .error ("readlink " ++ linkPath ++ ": invalid argument")
  | none => .error ("readlink " ++ linkPath ++ ": no such file or directory")

/-- Go `os.Remove` on a path inside the store: drop the child named
`goPathBase linkPath`, an error when it is missing. -/
def goRemoveEntry (st : Store) (linkPath : String) : Except String Store :=
  if st.children.any (fun e => e.name == goPathBase linkPath) then
    .ok ⟨st.readable, st.children.eraseP (fun e => e.name == goPathBase linkPath)⟩
  else .error ("remove " ++ linkPath ++ ": no such file or directory")

/-- Function `remove(linkPath)`: read the symlink's target first; only if that
succeeds delete the symlink; report `base -> target removed` with the
target read before the deletion. -/
def remove (w : World) (linkPath : String) : World × List String × HRes :=
  match goReadlink w.store linkPath with
  | .error e => (w, [], .err e)
  | .ok target =>
    match goRemoveEntry w.store linkPath with
    | .error e => (w, [], .err e)
    | .ok st' =>
      ({ w with store := st' },
       [goPathBase linkPath ++ " -> " ++ target ++ " removed"], .ok)

/-- Function `setKubeconfig`: `makeKubeconfig(configPath, args, output)`. -/
def setKubeconfig (w : World) (configPath : String) (args : List String) :
    World × List String × HRes :=
  match makeKubeconfig configPath (listSymDir w.store) args with
  | .errNotEnough => (w, [], .err "not enough arguments")
  | .okNilOnListError => (w, [], .ok)
  | .errOutOfRange => (w, [], .err "index out of range")
  | .oobAccess _ => (w, [], .crash)
  | .callResult p => output w p

/-- Function `removeKubeconfig`: `makeKubeconfig(configPath, args, remove)`. -/
def removeKubeconfig (w : World) (configPath : String) (args : List String) :
    World × List String × HRes :=
  match makeKubeconfig configPath (listSymDir w.store) args with
  | .errNotEnough => (w, [], .err "not enough arguments")
  | .okNilOnListError => (w, [], .ok)
  | .errOutOfRange => (w, [], .err "index out of range")
  | .oobAccess _ => (w, [], .crash)
  | .callResult p => remove w p

/-- Function `listKubeconfigs`: list the entries, marking with `* ` the one whose
joined path equals the `KUBECONFIG` environment variable. -/
def listKubeconfigs (w : World) (configPath : String) (_args : List String) :
    World × List String × HRes :=
  match listSymDir w.store with
  | .error e => (w, [], .err e)
  | .ok files =>
    (w,
     files.enum.map (fun q =>
       (if goPathJoin configPath q.2.name = w.kubeconfigEnv then "* " else "  ")
         ++ toString (q.1 + 1) ++ ") " ++ q.2.name),
     .ok)

/-- Function `exists(path)` (`os.Stat` + `!os.IsNotExist`) on an external absolute
file path: membership in the world's existing files. -/
def goExistsFile (w : World) (p : String) : Bool :=
  w.extFiles.contains p

/-- Function `exists(configPath + "/" + slink)` on a store child.  `os.Stat`
follows symbolic links, so a symlink child whose target does not exist
(a dangling entry) reports as non-existent; regular files and directories
report as existing. -/
def goExistsStore (w : World) (name : String) : Bool :=
  match w.store.children.find? (fun e => e.name == name) with
  | some e =>
    match e.node with
    | .symlink t => w.extFiles.contains t
    | _ => true
  | none => false

/-- Go `os.Symlink(file, configPath + "/" + slink)` for an alias without path
separators: fails with `EEXIST` (never overwrites) when a child of that
name already exists, otherwise creates the symlink child. -/
def goSymlink (st : Store) (target linkPath name : String) : Except String Store :=
  if st.children.any (fun e => e.name == name) then
    .error ("symlink " ++ target ++ " " ++ linkPath ++ ": file exists")
  else .ok ⟨st.readable, st.children ++ [⟨name, .symlink target⟩]⟩

/-- The alias `addKubeconfig` computes from its arguments:
`strings.Split(path.Base(args[0]), ".")[0]` when only the file is given,
`args[1]` when an explicit alias follows. -/
def addSlink (arg0 : String) (restArgs : List String) : String :=
  match restArgs with
  | [] => goSplitDotHead (goPathBase arg0)
  | a :: _ => a

/-- Function `addKubeconfig`: derive the alias, resolve the file to an absolute
path, require the file to exist and the alias not to, then create the
symlink and report the mapping. -/
def addKubeconfig (w : World) (configPath : String) (args : List String) :
    World × List String × HRes :=
  match args with
  | [] => (w, [], .err "not enough arguments")
  | arg0 :: restArgs =>
    let slink := addSlink arg0 restArgs
    let symlinkPath := configPath ++ "/" ++ slink
    let file := goAbs w.cwd arg0
    if ¬ goExistsFile w file then
      (w, [], .err ("kubeconfig not found: " ++ file))
    else if goExistsStore w slink then
      (w, [], .err ("kubeconfig already exists: \"" ++ slink ++ "\""))
    else
      match goSymlink w.store file symlinkPath slink with
      | .error e => (w, [], .err e)
      | .ok st' =>
        ({ w with store := st' }, [slink ++ " -> " ++ file ++ " added"], .ok)

/-! ## Flag handling and `main` -/

/-- The configuration `Config.Flags` builds: the four operation booleans
and the `Ops` bitmask (`uint8`). -/
structure Config where
  Add : Bool
  Set : Bool
  List : Bool
  Remove : Bool
  Ops : Nat
deriving DecidableEq, Repr

/-- Method `Config.Flags`: fold the explicit switches into the `Ops` bitmask;
when no switch was given, infer the operation from `len(os.Args)`
(1 → List, 2 → Set, 3 → Add; anything else leaves every flag unset).
Note the default cases set only the booleans, never `Ops`. -/
def Config.Flags (add set lst remove : Bool) (osArgsLen : Nat) : Config :=
  let ops : Nat :=
    (if add then 1 else 0) ||| (if set then 2 else 0) |||
    (if lst then 4 else 0) ||| (if remove then 8 else 0)
  let c : Config := ⟨add, set, lst, remove, ops⟩
  if ops = 0 then
    match osArgsLen with
    | 1 => { c with List := true }
    | 2 => { c with Set := true }
    | 3 => { c with Add := true }
    | _ => c
  else c

/-- Method `Config.Args`: positional arguments start at `os.Args[1]` when no
switch was given, at `os.Args[2]` otherwise. -/
def Config.Args (c : Config) (osArgs : ArgList) : ArgList :=
  if c.Ops = 0 then osArgs.drop 1 else osArgs.drop 2

/-- Method `Config.Validate`: the `Ops` bitmask must be one of `0, 1, 2, 4, 8`. -/
def Config.Validate (c : Config) : Bool :=
  c.Ops = 0 || c.Ops = 1 || c.Ops = 2 || c.Ops = 4 || c.Ops = 8

/-- Which handler `Config.Handler` returns. -/
inductive Op where
  | add : Op
  | set : Op
  | list : Op
  | remove : Op
  | noop : Op
deriving DecidableEq, Repr

/-- Method `Config.Handler`: first of Add/Set/List/Remove whose boolean is set;
the trivial `func(string, []string) error { return nil }` otherwise. -/
def Config.Handler (c : Config) : Op :=
  if c.Add then .add
  else if c.Set then .set
  else if c.List then .list
  else if c.Remove then .remove
  else .noop

/-- Run the handler `Config.Handler` selected.  `Op.noop` is the
source's literal `return nil` closure: no effect, no output, success. -/
def runHandler (op : Op) (w : World) (configPath : String)
    (args : List String) : World × List String × HRes :=
  match op with
  | .add => addKubeconfig w configPath args
  | .set => setKubeconfig w configPath args
  | .list => listKubeconfigs w configPath args
  | .remove => removeKubeconfig w configPath args
  | .noop => (w, [], .ok)

/-- Function `main`: build the config from the switches and `len(os.Args)`,
abort with exit code 1 before anything else when `Validate` fails,
otherwise dispatch the handler on the positional arguments (the store
path resolution of `configPath()` is abstracted to the given `configPath`;
it runs after validation, so the invalid-flags branch happens before it).
Result: final world, printed lines, exit code (2 models a runtime
panic). -/
def mainRun (add set lst remove : Bool) (osArgs : List String)
    (configPath : String) (w : World) : World × List String × Nat :=
  let c := Config.Flags add set lst remove osArgs.length
  if ¬ c.Validate then (w, ["error validating flags"], 1)
  else
    match runHandler c.Handler w configPath (c.Args osArgs) with
    | (w', printed, .ok) => (w', printed, 0)
    | (w', printed, .err e) => (w', printed ++ ["error handling request: " ++ e], 1)
    | (w', printed, .crash) => (w', printed, 2)

/-! ## Helper lemmas -/

/-- Evaluation of the resolver when the selector parses as an integer:
the alias scan is skipped and only the bounds check and the slice access
remain. -/
theorem makeKubeconfig_parsed (cp s : String) (rest : List String)
    (files : List DirEntry) (idx : Int) (hp : goAtoi s = (idx, false)) :
    makeKubeconfig cp (.ok files) (s :: rest) =
      (if idx < 0 || idx > (files.length : Int) then .errOutOfRange
       else if idx - 1 < 0 then .oobAccess (idx - 1)
       else
         match files.get? (idx - 1).toNat with
         | some f => .callResult (goPathJoin cp f.name)
         | none => .oobAccess (idx - 1)) := by
  simp only [makeKubeconfig, hp, Bool.false_eq_true, if_false]

/-- Evaluation of the resolver when the selector does not parse as an
integer: the entries are scanned for the trimmed selector, and on a miss
control falls through to the bounds check with the value `Atoi`
returned. -/
theorem makeKubeconfig_unparsed (cp s : String) (rest : List String)
    (files : List DirEntry) (hp : (goAtoi s).2 = true) :
    makeKubeconfig cp (.ok files) (s :: rest) =
      (match files.find? (fun f => f.name == goTrimSpace s) with
       | some f => .callResult (goPathJoin cp f.name)
       | none =>
         if (goAtoi s).1 < 0 || (goAtoi s).1 > (files.length : Int) then
           .errOutOfRange
         else if (goAtoi s).1 - 1 < 0 then .oobAccess ((goAtoi s).1 - 1)
         else
           match files.get? ((goAtoi s).1 - 1).toNat with
           | some f => .callResult (goPathJoin cp f.name)
           | none => .oobAccess ((goAtoi s).1 - 1)) := by
  simp only [makeKubeconfig, hp, if_true]

/-! ## The claims -/

/-- C1.  The claim states that an in-store resolution with parsed index
`0`, `N+1`, or negative always fails with the range error and never
reaches an out-of-bounds access.  This is false for index `0`: on a store
with one entry, the selector `"0"` passes the bounds check
`idx < 0 || idx > len(files)` and the code accesses `files[-1]` — a
runtime panic, not the range error. -/
theorem C1_counterexample :
    makeKubeconfig "/s" (.ok [⟨"my", .symlink "/f"⟩]) ["0"] =
      .oobAccess (-1) ∧
    ¬ makeKubeconfig "/s" (.ok [⟨"my", .symlink "/f"⟩]) ["0"] =
      .errOutOfRange := by
  constructor
  · rfl
  · decide

/-- C1 (amended).  For a selector that parses as the integer `idx`:
a negative `idx` and any `idx > N` (in particular `N+1`) fail with the
range error before any entry access; `idx = 0` instead passes the bounds
check and performs the out-of-bounds access `files[-1]` (a runtime
panic), whatever the store contents. -/
theorem C1_range_check (cp s : String) (rest : List String)
    (files : List DirEntry) (idx : Int) (hp : goAtoi s = (idx, false)) :
    ((idx < 0 ∨ (files.length : Int) < idx) →
      makeKubeconfig cp (.ok files) (s :: rest) = .errOutOfRange) ∧
    (idx = 0 →
      makeKubeconfig cp (.ok files) (s :: rest) = .oobAccess (-1)) := by
  rw [makeKubeconfig_parsed cp s rest files idx hp]
  constructor
  · intro h
    have : (idx < 0 || idx > (files.length : Int)) = true := by
      rcases h with h | h <;> simp [h]
    rw [if_pos this]
  · rintro rfl
    norm_num

/-- C1 witness: the amended statement applied to a one-entry store and
the concrete selector `"0"`. -/
theorem C1_range_check_witness :
    (((0 : Int) < 0 ∨ (([⟨"my", .symlink "/f"⟩] : List DirEntry).length : Int) < 0) →
      makeKubeconfig "/s" (.ok [⟨"my", .symlink "/f"⟩]) ["0"] = .errOutOfRange) ∧
    ((0 : Int) = 0 →
      makeKubeconfig "/s" (.ok [⟨"my", .symlink "/f"⟩]) ["0"] = .oobAccess (-1)) :=
  C1_range_check "/s" "0" [] [⟨"my", .symlink "/f"⟩] 0 (by decide)

/-- C2.  The claim states that an unmatched non-integer selector fails
with a not-found error and never accesses an entry.  This is false: on a
store with one entry `my`, the selector `"nope"` fails `Atoi` (which
returns `0`), matches no alias, passes the bounds check with `idx = 0`,
and the code accesses `files[-1]` — a runtime panic, not an error
return. -/
theorem C2_counterexample :
    makeKubeconfig "/s" (.ok [⟨"my", .symlink "/f"⟩]) ["nope"] =
      .oobAccess (-1) ∧
    ¬ makeKubeconfig "/s" (.ok [⟨"my", .symlink "/f"⟩]) ["nope"] =
      .errOutOfRange := by
  constructor
  · rfl
  · decide

/-- C2 (amended).  For a selector that does not parse as an integer:
resolution returns the first entry whose (untrimmed) name equals the
whitespace-trimmed selector; when no entry matches, it does not produce a
not-found error — it falls through to the index path with the value
`Atoi` returned (`0` for a malformed number), passes the bounds check,
and performs the out-of-bounds access `files[-1]`. -/
theorem C2_alias_resolution (cp s : String) (rest : List String)
    (files : List DirEntry) (hp : (goAtoi s).2 = true) :
    (∀ f, files.find? (fun e => e.name == goTrimSpace s) = some f →
      makeKubeconfig cp (.ok files) (s :: rest) =
        .callResult (goPathJoin cp f.name)) ∧
    (files.find? (fun e => e.name == goTrimSpace s) = none → (goAtoi s).1 = 0 →
      makeKubeconfig cp (.ok files) (s :: rest) = .oobAccess (-1)) := by
  rw [makeKubeconfig_unparsed cp s rest files hp]
  constructor
  · intro f hf
    rw [hf]
  · intro hn hz
    rw [hn, hz]
    norm_num

/-- C2 witness: the amended statement applied to a one-entry store,
once with the matching selector `" my "` (trimmed to the entry name) and
once with the unmatched selector `"nope"`. -/
theorem C2_alias_resolution_witness :
    ((∀ f, ([⟨"my", .symlink "/f"⟩] : List DirEntry).find?
        (fun e => e.name == goTrimSpace " my ") = some f →
      makeKubeconfig "/s" (.ok [⟨"my", .symlink "/f"⟩]) [" my "] =
        .callResult (goPathJoin "/s" f.name)) ∧
    (([⟨"my", .symlink "/f"⟩] : List DirEntry).find?
        (fun e => e.name == goTrimSpace " my ") = none → (goAtoi " my ").1 = 0 →
      makeKubeconfig "/s" (.ok [⟨"my", .symlink "/f"⟩]) [" my "] =
        .oobAccess (-1))) ∧
    ((∀ f, ([⟨"my", .symlink "/f"⟩] : List DirEntry).find?
        (fun e => e.name == goTrimSpace "nope") = some f →
      makeKubeconfig "/s" (.ok [⟨"my", .symlink "/f"⟩]) ["nope"] =
        .callResult (goPathJoin "/s" f.name)) ∧
    (([⟨"my", .symlink "/f"⟩] : List DirEntry).find?
        (fun e => e.name == goTrimSpace "nope") = none → (goAtoi "nope").1 = 0 →
      makeKubeconfig "/s" (.ok [⟨"my", .symlink "/f"⟩]) ["nope"] =
        .oobAccess (-1))) :=
  ⟨C2_alias_resolution "/s" " my " [] [⟨"my", .symlink "/f"⟩] (by decide),
   C2_alias_resolution "/s" "nope" [] [⟨"my", .symlink "/f"⟩] (by decide)⟩

/-- C3.  The claim (and the spec) says a failing store-directory read
makes Set/Remove fail with the IOError.  The code instead does
`return nil` when `listSymDir` errors (`main.go` line 188), so both
handlers report success, print nothing, and `main` exits 0.  Evaluated
here at the failing input: a store whose directory cannot be read, with
argument list `["1"]`. -/
theorem C3_eval :
    makeKubeconfig "/s" (.error "open dir: permission denied") ["1"] =
      .okNilOnListError ∧
    setKubeconfig ⟨⟨false, []⟩, [], "/", ""⟩ "/s" ["1"] =
      (⟨⟨false, []⟩, [], "/", ""⟩, [], .ok) ∧
    removeKubeconfig ⟨⟨false, []⟩, [], "/", ""⟩ "/s" ["1"] =
      (⟨⟨false, []⟩, [], "/", ""⟩, [], .ok) ∧
    mainRun false true false false ["kconf", "-s", "1"] "/s"
        ⟨⟨false, []⟩, [], "/", ""⟩ =
      (⟨⟨false, []⟩, [], "/", ""⟩, [], 0) := by
  refine ⟨rfl, rfl, rfl, rfl⟩

/-- C4.  For every readable store and every selector parsing as an
integer `idx` with `1 ≤ idx ≤ N`, resolution returns
`path.Join(configPath, files[idx-1].Name())` for the `idx`-th entry of
the listing; and the listing produced by `listSymDir` is sorted by alias
(hence deterministic) and consists exactly of the store's symbolic-link
children. -/
theorem C4_index_resolution (st : Store) (cp s : String) (rest : List String)
    (files : List DirEntry) (idx : Int)
    (hl : listSymDir st = .ok files) (hp : goAtoi s = (idx, false))
    (h1 : 1 ≤ idx) (h2 : idx ≤ (files.length : Int)) :
    (∃ f, files.get? (idx - 1).toNat = some f ∧
      makeKubeconfig cp (listSymDir st) (s :: rest) =
        .callResult (goPathJoin cp f.name)) ∧
    files.Pairwise nameLe ∧
    (∀ f ∈ files, f.node.isSym = true ∧ f ∈ st.children) ∧
    (∀ f ∈ st.children, f.node.isSym = true → f ∈ files) := by
  have hread : st.readable = true := by
    by_contra h
    simp only [listSymDir, h, if_false] at hl
    simp at hl
  have hfiles :
      files = (st.children.insertionSort nameLe).filter fun e => e.node.isSym := by
    simp only [listSymDir, hread, if_true, Except.ok.injEq] at hl
    exact hl.symm
  have hlen : (idx - 1).toNat < files.length := by omega
  refine ⟨⟨files.get ⟨(idx - 1).toNat, hlen⟩, List.get?_eq_get hlen, ?_⟩, ?_, ?_, ?_⟩
  · rw [hl, makeKubeconfig_parsed cp s rest files idx hp]
    have hc : (idx < 0 || idx > (files.length : Int)) = false := by
      simp only [Bool.or_eq_false_iff, decide_eq_false_iff_not, not_lt]
      omega
    rw [hc]
    simp only [Bool.false_eq_true, if_false]
    rw [if_neg (by omega), List.get?_eq_get hlen]
  · rw [hfiles]
    exact ((List.sorted_insertionSort nameLe st.children).filter _)
  · intro f hf
    rw [hfiles] at hf
    rcases List.mem_filter.mp hf with ⟨hmem, hsym⟩
    exact ⟨hsym, (List.mem_insertionSort nameLe).mp hmem⟩
  · intro f hf hsym
    rw [hfiles]
    exact List.mem_filter.mpr ⟨(List.mem_insertionSort nameLe).mpr hf, hsym⟩

/-- C4 witness: a three-child store (two symlinks out of alias order plus
a regular file) with the concrete selector `"2"`. -/
theorem C4_index_resolution_witness :
    (∃ f, ([⟨"a", .symlink "/f2"⟩, ⟨"b", .symlink "/f1"⟩] : List DirEntry).get?
        ((2 : Int) - 1).toNat = some f ∧
      makeKubeconfig "/s"
          (listSymDir ⟨true, [⟨"b", .symlink "/f1"⟩, ⟨"d", .dir⟩, ⟨"a", .symlink "/f2"⟩]⟩)
          ["2"] =
        .callResult (goPathJoin "/s" f.name)) ∧
    ([⟨"a", .symlink "/f2"⟩, ⟨"b", .symlink "/f1"⟩] : List DirEntry).Pairwise nameLe ∧
    (∀ f ∈ ([⟨"a", .symlink "/f2"⟩, ⟨"b", .symlink "/f1"⟩] : List DirEntry),
      f.node.isSym = true ∧
        f ∈ ([⟨"b", .symlink "/f1"⟩, ⟨"d", .dir⟩, ⟨"a", .symlink "/f2"⟩] : List DirEntry)) ∧
    (∀ f ∈ ([⟨"b", .symlink "/f1"⟩, ⟨"d", .dir⟩, ⟨"a", .symlink "/f2"⟩] : List DirEntry),
      f.node.isSym = true →
        f ∈ ([⟨"a", .symlink "/f2"⟩, ⟨"b", .symlink "/f1"⟩] : List DirEntry)) :=
  C4_index_resolution ⟨true, [⟨"b", .symlink "/f1"⟩, ⟨"d", .dir⟩, ⟨"a", .symlink "/f2"⟩]⟩
    "/s" "2" [] [⟨"a", .symlink "/f2"⟩, ⟨"b", .symlink "/f1"⟩] 2
    (by rfl) (by decide) (by decide) (by decide)

/-- The `Ops` bitmask depends only on the explicit switches, never on the
argument count: the default cases of `Config.Flags` set only the
operation booleans. -/
theorem Flags_Ops (a s l r : Bool) (n : Nat) :
    (Config.Flags a s l r n).Ops =
      ((if a then 1 else 0) ||| (if s then 2 else 0) |||
       (if l then 4 else 0) ||| (if r then 8 else 0)) := by
  cases a <;> cases s <;> cases l <;> cases r <;>
    first
      | rfl
      | (rcases n with _ | _ | _ | _ | n <;> rfl)

/-- C5.  With no explicit operation switch, the operation is inferred
from `len(os.Args)` (one more than the count of positional arguments):
0 positional arguments select List, 1 selects Set, 2 selects Add, and 3
or more leave every operation unset, so the dispatched handler is the
trivial one: it changes nothing, prints nothing, and succeeds. -/
theorem C5_default_operations (n : Nat) (cp : String) (args : List String)
    (w : World) :
    (Config.Flags false false false false 1).Handler = .list ∧
    (Config.Flags false false false false 2).Handler = .set ∧
    (Config.Flags false false false false 3).Handler = .add ∧
    (4 ≤ n →
      (Config.Flags false false false false n).Handler = .noop ∧
      runHandler (Config.Flags false false false false n).Handler w cp args =
        (w, [], .ok)) := by
  refine ⟨rfl, rfl, rfl, fun h => ?_⟩
  obtain ⟨m, rfl⟩ : ∃ m, n = m + 4 := ⟨n - 4, by omega⟩
  exact ⟨rfl, rfl⟩

/-- C5 witness: the statement instantiated at five `os.Args` entries
(four positional arguments). -/
theorem C5_default_operations_witness :
    (Config.Flags false false false false 1).Handler = .list ∧
    (Config.Flags false false false false 2).Handler = .set ∧
    (Config.Flags false false false false 3).Handler = .add ∧
    (4 ≤ 5 →
      (Config.Flags false false false false 5).Handler = .noop ∧
      runHandler (Config.Flags false false false false 5).Handler
          ⟨⟨true, []⟩, [], "/", ""⟩ "/s" ["x", "y", "z", "t"] =
        (⟨⟨true, []⟩, [], "/", ""⟩, [], .ok)) :=
  C5_default_operations 5 "/s" ["x", "y", "z", "t"] ⟨⟨true, []⟩, [], "/", ""⟩

/-- The number of operation switches that are set. -/
def countFlags (a s l r : Bool) : Nat :=
  (if a then 1 else 0) + (if s then 1 else 0) +
  (if l then 1 else 0) + (if r then 1 else 0)

/-- C6.  Validation succeeds exactly when zero or one of the four
operation switches is set; with two or more set, `main` prints the
validation error and exits 1 before dispatching any handler, leaving the
whole world (in particular the store) untouched. -/
theorem C6_flag_validation (a s l r : Bool) (osArgs : List String)
    (cp : String) (w : World) :
    ((Config.Flags a s l r osArgs.length).Validate = true ↔
      countFlags a s l r ≤ 1) ∧
    (2 ≤ countFlags a s l r →
      mainRun a s l r osArgs cp w = (w, ["error validating flags"], 1)) := by
  have hops := Flags_Ops a s l r osArgs.length
  constructor
  · rw [Config.Validate, hops]
    cases a <;> cases s <;> cases l <;> cases r <;> simp [countFlags]
  · intro h
    have hv : (Config.Flags a s l r osArgs.length).Validate = false := by
      rw [Config.Validate, hops]
      cases a <;> cases s <;> cases l <;> cases r <;>
        simp_all [countFlags]
    rw [mainRun]
    simp [hv]

/-- C6 witness: both switches `-a` and `-s` set on an otherwise empty
command line. -/
theorem C6_flag_validation_witness :
    ((Config.Flags true true false false (["kconf"] : List String).length).Validate = true ↔
      countFlags true true false false ≤ 1) ∧
    (2 ≤ countFlags true true false false →
      mainRun true true false false ["kconf"] "/s" ⟨⟨true, []⟩, [], "/", ""⟩ =
        (⟨⟨true, []⟩, [], "/", ""⟩, ["error validating flags"], 1)) :=
  C6_flag_validation true true false false ["kconf"] "/s" ⟨⟨true, []⟩, [], "/", ""⟩

/-- C7.  The claim states that Add on an already-used alias always fails
with the "already exists" conflict error.  This is false when the
existing entry is a dangling symlink (its target does not exist):
`exists()` uses `os.Stat`, which follows symlinks, so the conflict check
does not fire, and the failure is `os.Symlink`'s EEXIST error instead
(the store is still unchanged). -/
theorem C7_counterexample :
    addKubeconfig ⟨⟨true, [⟨"my", .symlink "/gone"⟩]⟩, ["/cfg.yml"], "/", ""⟩
        "/s" ["/cfg.yml", "my"] =
      (⟨⟨true, [⟨"my", .symlink "/gone"⟩]⟩, ["/cfg.yml"], "/", ""⟩, [],
       .err "symlink /cfg.yml /s/my: file exists") ∧
    ¬ (addKubeconfig ⟨⟨true, [⟨"my", .symlink "/gone"⟩]⟩, ["/cfg.yml"], "/", ""⟩
        "/s" ["/cfg.yml", "my"]).2.2 =
      .err "kubeconfig already exists: \"my\"" := by
  constructor
  · rfl
  · decide

/-- C7 (amended).  When the computed alias already names a store child,
Add always fails and leaves the store (indeed the whole world) unchanged,
printing nothing: no symlink is created or replaced.  The error is the
"already exists" conflict error exactly when the file argument exists and
the existing child is visible to `os.Stat` (a regular file, a directory,
or a symlink whose target exists); for a dangling symlink the failure
surfaces as `os.Symlink`'s EEXIST error instead. -/
theorem C7_add_conflict (w : World) (cp a0 : String) (restArgs : List String)
    (h : w.store.children.any (fun e => e.name == addSlink a0 restArgs) = true) :
    ((addKubeconfig w cp (a0 :: restArgs)).1 = w ∧
     (addKubeconfig w cp (a0 :: restArgs)).2.1 = [] ∧
     ¬ (addKubeconfig w cp (a0 :: restArgs)).2.2 = HRes.ok) ∧
    (goExistsFile w (goAbs w.cwd a0) = true →
      goExistsStore w (addSlink a0 restArgs) = true →
      (addKubeconfig w cp (a0 :: restArgs)).2.2 =
        .err ("kubeconfig already exists: \"" ++ addSlink a0 restArgs ++ "\"")) := by
  have hsym : goSymlink w.store (goAbs w.cwd a0)
      (cp ++ "/" ++ addSlink a0 restArgs) (addSlink a0 restArgs) =
      .error ("symlink " ++ goAbs w.cwd a0 ++ " " ++
        (cp ++ "/" ++ addSlink a0 restArgs) ++ ": file exists") := by
    simp only [goSymlink, h, if_true]
  constructor
  · simp only [addKubeconfig]
    split_ifs <;>
      first
        | (rw [hsym]; exact ⟨rfl, rfl, fun hc => by simp at hc⟩)
        | exact ⟨rfl, rfl, fun hc => by simp at hc⟩
  · intro hf hs
    simp only [addKubeconfig]
    rw [if_neg (not_not_intro hf), if_pos hs]

/-- C7 witness: the amended statement applied to a store already holding
the (non-dangling) entry `my`, with arguments `/cfg.yml my`. -/
theorem C7_add_conflict_witness :
    ((addKubeconfig ⟨⟨true, [⟨"my", .symlink "/f"⟩]⟩, ["/cfg.yml", "/f"], "/", ""⟩
        "/s" ("/cfg.yml" :: ["my"])).1 =
      ⟨⟨true, [⟨"my", .symlink "/f"⟩]⟩, ["/cfg.yml", "/f"], "/", ""⟩ ∧
     (addKubeconfig ⟨⟨true, [⟨"my", .symlink "/f"⟩]⟩, ["/cfg.yml", "/f"], "/", ""⟩
        "/s" ("/cfg.yml" :: ["my"])).2.1 = [] ∧
     ¬ (addKubeconfig ⟨⟨true, [⟨"my", .symlink "/f"⟩]⟩, ["/cfg.yml", "/f"], "/", ""⟩
        "/s" ("/cfg.yml" :: ["my"])).2.2 = HRes.ok) ∧
    (goExistsFile ⟨⟨true, [⟨"my", .symlink "/f"⟩]⟩, ["/cfg.yml", "/f"], "/", ""⟩
        (goAbs "/" "/cfg.yml") = true →
      goExistsStore ⟨⟨true, [⟨"my", .symlink "/f"⟩]⟩, ["/cfg.yml", "/f"], "/", ""⟩
        (addSlink "/cfg.yml" ["my"]) = true →
      (addKubeconfig ⟨⟨true, [⟨"my", .symlink "/f"⟩]⟩, ["/cfg.yml", "/f"], "/", ""⟩
        "/s" ("/cfg.yml" :: ["my"])).2.2 =
        .err ("kubeconfig already exists: \"" ++ addSlink "/cfg.yml" ["my"] ++ "\"")) :=
  C7_add_conflict ⟨⟨true, [⟨"my", .symlink "/f"⟩]⟩, ["/cfg.yml", "/f"], "/", ""⟩
    "/s" "/cfg.yml" ["my"] (by decide)

/-- A split on a character that is never empty. -/
theorem splitOnChar_ne_nil (sep : Char) (l : List Char) :
    ¬ splitOnChar sep l = [] := by
  cases l with
  | nil => simp [splitOnChar]
  | cons c rest =>
    simp only [splitOnChar]
    split_ifs
    · simp
    · cases h : splitOnChar sep rest <;> simp

/-- The first part of a character split is the prefix before the first
separator. -/
theorem splitOnChar_head (sep : Char) (l : List Char) :
    (splitOnChar sep l).headD [] = l.takeWhile (fun c => !(c == sep)) := by
  induction l with
  | nil => rfl
  | cons c rest ih =>
    simp only [splitOnChar]
    by_cases h : c = sep
    · subst h
      simp [List.takeWhile]
    · rw [if_neg h]
      cases hs : splitOnChar sep rest with
      | nil => exact absurd hs (splitOnChar_ne_nil sep rest)
      | cons h0 t =>
        rw [hs] at ih
        simp only [List.headD] at ih ⊢
        have hb : (c == sep) = false := by simp [h]
        simp [List.takeWhile, hb, ih]

/-- C8.  For an Add invocation with exactly one argument, the alias is
`strings.Split(path.Base(file), ".")[0]`: the substring of the file's
base name before the first dot, so `kube_config_cluster.yml` yields
`kube_config_cluster`. -/
theorem C8_alias_derivation (f : String) :
    addSlink f [] = goSplitDotHead (goPathBase f) ∧
    (addSlink f []).data =
      (goPathBase f).data.takeWhile (fun c => !(c == '.')) ∧
    addSlink "kube_config_cluster.yml" [] = "kube_config_cluster" := by
  refine ⟨rfl, ?_, rfl⟩
  show (goSplitDotHead (goPathBase f)).data = _
  unfold goSplitDotHead goSplitDot
  cases hs : splitOnChar '.' (goPathBase f).data with
  | nil => exact absurd hs (splitOnChar_ne_nil '.' (goPathBase f).data)
  | cons h0 t =>
    have := splitOnChar_head '.' (goPathBase f).data
    rw [hs] at this
    simp only [List.headD] at this
    simp [hs, this]

/-- C8 witness: the statement applied to a rooted multi-dot path. -/
theorem C8_alias_derivation_witness :
    addSlink "/tmp/kube_config_cluster.tar.gz" [] =
      goSplitDotHead (goPathBase "/tmp/kube_config_cluster.tar.gz") ∧
    (addSlink "/tmp/kube_config_cluster.tar.gz" []).data =
      (goPathBase "/tmp/kube_config_cluster.tar.gz").data.takeWhile
        (fun c => !(c == '.')) ∧
    addSlink "kube_config_cluster.yml" [] = "kube_config_cluster" :=
  C8_alias_derivation "/tmp/kube_config_cluster.tar.gz"

/-- C9.  Set never changes the world (in particular it neither creates,
deletes nor modifies any symlink of the store); its only output is the
single shell-executable activation line for the resolved entry's path,
emitted exactly when resolution succeeds. -/
theorem C9_set_no_mutation (w : World) (cp : String) (args : List String) :
    (setKubeconfig w cp args).1 = w ∧
    ((setKubeconfig w cp args).2.1 = [] ∨
      ∃ p, makeKubeconfig cp (listSymDir w.store) args = .callResult p ∧
        (setKubeconfig w cp args).2.1 = ["export KUBECONFIG=" ++ p]) ∧
    (∀ p, makeKubeconfig cp (listSymDir w.store) args = .callResult p →
      (setKubeconfig w cp args).2 = (["export KUBECONFIG=" ++ p], HRes.ok)) := by
  unfold setKubeconfig output
  cases h : makeKubeconfig cp (listSymDir w.store) args <;> simp [h]

/-- C9 witness: Set by index on a one-entry store. -/
theorem C9_set_no_mutation_witness :
    (setKubeconfig ⟨⟨true, [⟨"my", .symlink "/f"⟩]⟩, [], "/", ""⟩ "/s" ["1"]).1 =
      ⟨⟨true, [⟨"my", .symlink "/f"⟩]⟩, [], "/", ""⟩ ∧
    ((setKubeconfig ⟨⟨true, [⟨"my", .symlink "/f"⟩]⟩, [], "/", ""⟩ "/s" ["1"]).2.1 = [] ∨
      ∃ p, makeKubeconfig "/s"
          (listSymDir (⟨true, [⟨"my", .symlink "/f"⟩]⟩ : Store)) ["1"] = .callResult p ∧
        (setKubeconfig ⟨⟨true, [⟨"my", .symlink "/f"⟩]⟩, [], "/", ""⟩ "/s" ["1"]).2.1 =
          ["export KUBECONFIG=" ++ p]) ∧
    (∀ p, makeKubeconfig "/s"
        (listSymDir (⟨true, [⟨"my", .symlink "/f"⟩]⟩ : Store)) ["1"] = .callResult p →
      (setKubeconfig ⟨⟨true, [⟨"my", .symlink "/f"⟩]⟩, [], "/", ""⟩ "/s" ["1"]).2 =
        (["export KUBECONFIG=" ++ p], HRes.ok)) :=
  C9_set_no_mutation ⟨⟨true, [⟨"my", .symlink "/f"⟩]⟩, [], "/", ""⟩ "/s" ["1"]

/-- C10.  Remove reads the symlink's target before any deletion: when
`os.Readlink` fails the error is returned with the store untouched (the
symlink is not deleted), and on success the reported message pairs the
symlink's base name with the target read before the deletion.  The last
conjunct ties `removeKubeconfig` to `remove`: a resolved selector is
passed straight to `remove`. -/
theorem C10_remove_reads_target_first (w : World) (cp p : String)
    (args : List String) :
    (∀ e, goReadlink w.store p = .error e → remove w p = (w, [], .err e)) ∧
    (∀ w' msgs, remove w p = (w', msgs, HRes.ok) →
      ∃ t st', goReadlink w.store p = .ok t ∧
        goRemoveEntry w.store p = .ok st' ∧ w' = { w with store := st' } ∧
        msgs = [goPathBase p ++ " -> " ++ t ++ " removed"]) ∧
    (makeKubeconfig cp (listSymDir w.store) args = .callResult p →
      removeKubeconfig w cp args = remove w p) := by
  refine ⟨fun e he => ?_, fun w' msgs hr => ?_, fun h => ?_⟩
  · unfold remove
    rw [he]
  · unfold remove at hr
    cases hread : goReadlink w.store p with
    | error e => rw [hread] at hr; simp at hr
    | ok t =>
      rw [hread] at hr
      cases hrem : goRemoveEntry w.store p with
      | error e => rw [hrem] at hr; simp at hr
      | ok st' =>
        rw [hrem] at hr
        simp only [Prod.mk.injEq] at hr
        exact ⟨t, st', rfl, rfl, hr.1.symm, hr.2.1.symm⟩
  · unfold removeKubeconfig
    rw [h]

/-- C10 witness: removing the single entry `my` through the resolved
path `/s/my`. -/
theorem C10_remove_reads_target_first_witness :
    (∀ e, goReadlink (⟨true, [⟨"my", .symlink "/f"⟩]⟩ : Store) "/s/my" = .error e →
      remove ⟨⟨true, [⟨"my", .symlink "/f"⟩]⟩, [], "/", ""⟩ "/s/my" =
        (⟨⟨true, [⟨"my", .symlink "/f"⟩]⟩, [], "/", ""⟩, [], .err e)) ∧
    (∀ w' msgs, remove ⟨⟨true, [⟨"my", .symlink "/f"⟩]⟩, [], "/", ""⟩ "/s/my" =
        (w', msgs, HRes.ok) →
      ∃ t st', goReadlink (⟨true, [⟨"my", .symlink "/f"⟩]⟩ : Store) "/s/my" = .ok t ∧
        goRemoveEntry (⟨true, [⟨"my", .symlink "/f"⟩]⟩ : Store) "/s/my" = .ok st' ∧
        w' = { (⟨⟨true, [⟨"my", .symlink "/f"⟩]⟩, [], "/", ""⟩ : World) with store := st' } ∧
        msgs = [goPathBase "/s/my" ++ " -> " ++ t ++ " removed"]) ∧
    (makeKubeconfig "/s" (listSymDir (⟨true, [⟨"my", .symlink "/f"⟩]⟩ : Store)) ["my"] =
        .callResult "/s/my" →
      removeKubeconfig ⟨⟨true, [⟨"my", .symlink "/f"⟩]⟩, [], "/", ""⟩ "/s" ["my"] =
        remove ⟨⟨true, [⟨"my", .symlink "/f"⟩]⟩, [], "/", ""⟩ "/s/my") :=
  C10_remove_reads_target_first ⟨⟨true, [⟨"my", .symlink "/f"⟩]⟩, [], "/", ""⟩
    "/s" "/s/my" ["my"]

end Kconf
